import Mathlib

/-!
Verification of the mini network stack (client / link / server TCP-IP
teaching simulator).

The JavaScript source is shallowly embedded as follows.

* `Uint8Array` buffers become `List Nat`; every store site that the
  runtime coerces modulo 256 is modelled with an explicit `% 256` (the
  constructors already mask each field exactly where the source does).
* 32-bit JavaScript bitwise operations become the corresponding `Nat`
  operations (`&&&`, `|||`, `<<<`, `>>>`); all operands stay far below
  `2^31`, where the JavaScript and `Nat` semantics agree, except for the
  bitwise-not in `ipChecksum`, which is translated by the identity
  `(~s) & 0xFFFF = 0xFFFF - (s &&& 0xFFFF)` valid for every unsigned
  32-bit `s`.
* The floating-point timing model of `NetworkLink` becomes exact
  rational arithmetic (`ℚ`); the three `Math.random()` draws taken by
  `send` (loss, jitter, duplex back-off) become explicit arguments, and
  the receiver callback becomes an abstract value of a type parameter.
* Fallible operations (`connect`, which can throw) return `Except`.
-/

namespace NetStack

/-- `b.set(src, off)` on a `Uint8Array`: overwrite `src.length` bytes of
`buf` starting at offset `off`.  Faithful whenever
`off + src.length ≤ buf.length`, which holds at every call site of the
source (option blocks are padded to the 4-byte boundary that sized the
buffer). -/
def setBytes (buf : List Nat) (off : Nat) (src : List Nat) : List Nat :=
  buf.take off ++ src ++ buf.drop (off + src.length)

/-- One iteration of the carry fold inside `ipChecksum`:
`sum = (sum & 0xFFFF) + (sum >>> 16)`. -/
def fold16 (s : Nat) : Nat := (s &&& 0xFFFF) + (s >>> 16)

/-- The loop of `ipChecksum(bytes)`: bytes are consumed two at a time as
big-endian 16-bit words (a missing trailing byte reads as `0` through
`bytes[i+1] ?? 0`), each word is added into the accumulator and the
carry is folded immediately. -/
def ipSumGo : Nat → List Nat → Nat
  | s, [] => s
  | s, [a] => fold16 (s + ((a <<< 8) ||| 0))
  | s, a :: b :: rest => ipSumGo (fold16 (s + ((a <<< 8) ||| b))) rest

/-- `ipChecksum(bytes)`: the folded one's-complement sum, complemented.
The source returns `(~sum) & 0xFFFF`; for an unsigned 32-bit `sum` this
equals `0xFFFF - (sum &&& 0xFFFF)`. -/
def ipChecksum (bytes : List Nat) : Nat := 0xFFFF - (ipSumGo 0 bytes &&& 0xFFFF)

/-- Modelled from the spec (§4.1), for comparison with `ipSumGo`: the
16-bit big-endian words of a byte sequence (odd trailing byte padded
with a zero low byte). -/
def specWords : List Nat → List Nat
  | [] => []
  | [a] => [(a <<< 8) ||| 0]
  | a :: b :: rest => ((a <<< 8) ||| b) :: specWords rest

/-- Modelled from the spec (§4.1), for comparison with `ipChecksum`:
fold carries from bits 16 and above back into the low 16 bits,
iteratively, until no carry remains. -/
def specFoldCarries (s : Nat) : Nat :=
  if s < 0x10000 then s else specFoldCarries ((s &&& 0xFFFF) + (s >>> 16))
termination_by s
decreasing_by
  rename_i hs
  have h1 : s &&& 0xFFFF = s % 65536 := by
    have h := Nat.and_pow_two_sub_one_eq_mod s 16
    norm_num at h
    exact h
  have h2 : s >>> 16 = s / 65536 := by
    have h := Nat.shiftRight_eq_div_pow s 16
    norm_num at h
    exact h
  rw [h1, h2]
  omega

/-- The loop of `segment(bytes, mss)`: slice `[i, i+mss)` is pushed and
`i` advances by `mss`.  The `0 < mss` conjunct makes the function total
in Lean; with `mss = 0` the source loop would never terminate, and every
claim about `segment` assumes a positive maximum segment size. -/
def segmentGo (mss : Nat) (bytes : List Nat) (i : Nat) : List (List Nat) :=
  if h : 0 < mss ∧ i < bytes.length then
    ((bytes.drop i).take mss) :: segmentGo mss bytes (i + mss)
  else []
termination_by bytes.length - i
decreasing_by omega

/-- `segment(bytes, mss)`: split a byte buffer into maximum-segment-size
slices. -/
def segment (bytes : List Nat) (mss : Nat) : List (List Nat) :=
  segmentGo mss bytes 0

/-- `cat(a, b)`: concatenation of two byte buffers. -/
def cat (a b : List Nat) : List Nat := a ++ b

/-- `concat(arr)`: the source preallocates the total length and copies
each buffer at strictly increasing offsets, which is concatenation in
list order. -/
def concat (arr : List (List Nat)) : List Nat :=
  arr.foldl (fun acc b => acc ++ b) []

/-- The `flags` object carried by a `TCPHeader`.  The source stores
0/1-valued (or missing, hence falsy) properties and only ever tests
truthiness, so each flag is a `Bool`. -/
structure TCPFlags where
  ns : Bool
  cwr : Bool
  ecn : Bool
  urg : Bool
  ack : Bool
  psh : Bool
  rst : Bool
  syn : Bool
  fin : Bool
deriving DecidableEq

/-- `TCPHeader` instance fields, as laid down by the constructor.  The
`checksum` property (always `0`, never read back) is not carried. -/
structure TCPHeader where
  srcPort : Nat
  dstPort : Nat
  seq : Nat
  ack : Nat
  dataOffsetWords : Nat
  flags : TCPFlags
  windowSize : Nat
  urgentPtr : Nat
  optionsBytes : List Nat
deriving DecidableEq

/-- The `TCPHeader` constructor: `seq`/`ack` wrap through `>>> 0`
(unsigned 32-bit), the data offset grows by the word-padded option
length, `windowSize`/`urgentPtr` are masked to 16 bits, and the option
bytes live in a `Uint8Array` (each entry coerced modulo 256). -/
def TCPHeader.make (srcPort dstPort seq ack dataOffsetWords : Nat) (flags : TCPFlags)
    (windowSize urgentPtr : Nat) (optionsBytes : List Nat) : TCPHeader :=
  { srcPort := srcPort
    dstPort := dstPort
    seq := seq % 4294967296
    ack := ack % 4294967296
    dataOffsetWords := dataOffsetWords + (optionsBytes.length + 3) / 4
    flags := flags
    windowSize := windowSize &&& 0xFFFF
    urgentPtr := urgentPtr &&& 0xFFFF
    optionsBytes := optionsBytes.map (· % 256) }

/-- Byte 13 of `TCPHeader.pack`: the control-flag bits, in exactly the
shifts the source writes — note that `ns` and `cwr` are both shifted to
bit 7. -/
def flagsByteOf (f : TCPFlags) : Nat :=
  ((if f.ns then 1 else 0) <<< 7) |||
  ((if f.cwr then 1 else 0) <<< 7) |||
  ((if f.ecn then 1 else 0) <<< 6) |||
  ((if f.urg then 1 else 0) <<< 5) |||
  ((if f.ack then 1 else 0) <<< 4) |||
  ((if f.psh then 1 else 0) <<< 3) |||
  ((if f.rst then 1 else 0) <<< 2) |||
  ((if f.syn then 1 else 0) <<< 1) |||
  ((if f.fin then 1 else 0) <<< 0)

/-- Bytes 0–19 of `TCPHeader.pack`, before the options are copied in
(offsets 16–17 are the never-computed checksum placeholder). -/
def TCPHeader.base (h : TCPHeader) : List Nat :=
  [(h.srcPort >>> 8) &&& 0xFF, h.srcPort &&& 0xFF,
   (h.dstPort >>> 8) &&& 0xFF, h.dstPort &&& 0xFF,
   (h.seq >>> 24) &&& 0xFF, (h.seq >>> 16) &&& 0xFF,
   (h.seq >>> 8) &&& 0xFF, (h.seq >>> 0) &&& 0xFF,
   (h.ack >>> 24) &&& 0xFF, (h.ack >>> 16) &&& 0xFF,
   (h.ack >>> 8) &&& 0xFF, (h.ack >>> 0) &&& 0xFF,
   (h.dataOffsetWords <<< 4) &&& 0xF0,
   flagsByteOf h.flags,
   (h.windowSize >>> 8) &&& 0xFF, h.windowSize &&& 0xFF,
   0, 0,
   (h.urgentPtr >>> 8) &&& 0xFF, h.urgentPtr &&& 0xFF]

/-- `TCPHeader.pack(payload)`: a zero-filled buffer of
`dataOffsetWords * 4` bytes receives the fixed 20-byte layout and then,
if present, the options at offset 20.  The `payload` argument of the
source is ignored by `pack`, so it is not a parameter here.  Faithful
for `dataOffsetWords ≥ 5` (every construction site passes the default
base offset 5); below 5 the source's shorter buffer would clip the fixed
fields. -/
def TCPHeader.pack (h : TCPHeader) : List Nat :=
  let b := h.base ++ List.replicate (h.dataOffsetWords * 4 - 20) 0
  if 5 < h.dataOffsetWords ∧ h.optionsBytes ≠ [] then setBytes b 20 h.optionsBytes
  else b

/-- The record returned by `TCPHeader.parse`.  The source formats the
raw flag byte as a hex string under the key `flagsHex`; the formatting
is injective, so the numeric byte is carried instead. -/
structure TCPParsed where
  srcPort : Nat
  dstPort : Nat
  dataOffsetBytes : Nat
  flagsHex : Nat
  windowSize : Nat
deriving DecidableEq

/-- `TCPHeader.parse(b)`: fixed-offset reads.  An out-of-range
`Uint8Array` read is `undefined`, which the shift/or coercions turn into
`0`, hence `getD _ 0`. -/
def TCPHeader.parse (b : List Nat) : TCPParsed :=
  { srcPort := ((b.getD 0 0) <<< 8) ||| b.getD 1 0
    dstPort := ((b.getD 2 0) <<< 8) ||| b.getD 3 0
    dataOffsetBytes := (((b.getD 12 0) >>> 4) &&& 0x0F) * 4
    flagsHex := b.getD 13 0
    windowSize := ((b.getD 14 0) <<< 8) ||| b.getD 15 0 }

/-- `IPv4Header` instance fields.  `src`/`dst` are the numeric
components of the dotted-quad string after `split('.')` plus `Number`
coercion (`ipToBytes` applies the `& 255` mask at pack time; a missing
component reads as `undefined` and stores as byte 0, hence a plain
`List Nat` models any well- or mal-formed address).  The constructor's
`totalLength = 0` and `headerChecksum = 0` placeholders are never read
back (pack recomputes both), so they are not carried. -/
structure IPv4Header where
  version : Nat
  ihl : Nat
  dscp : Nat
  ecn : Nat
  id : Nat
  df : Bool
  mf : Bool
  fragOffset : Nat
  ttl : Nat
  protocol : Nat
  src : List Nat
  dst : List Nat
  optionsBytes : List Nat
deriving DecidableEq

/-- The `IPv4Header` constructor: `ihl = 5 + ceil(options/4)` with no
upper bound, and each numeric field masked exactly as the source masks
it. -/
def IPv4Header.make (src dst : List Nat) (dscp ecn id : Nat) (df mf : Bool)
    (fragOffset ttl protocol : Nat) (optionsBytes : List Nat) : IPv4Header :=
  { version := 4
    ihl := 5 + (optionsBytes.length + 3) / 4
    dscp := dscp &&& 0x3F
    ecn := ecn &&& 0x03
    id := id &&& 0xFFFF
    df := df
    mf := mf
    fragOffset := fragOffset &&& 0x1FFF
    ttl := ttl &&& 0xFF
    protocol := protocol &&& 0xFF
    src := src
    dst := dst
    optionsBytes := optionsBytes.map (· % 256) }

/-- Bytes 0–19 of `IPv4Header.pack` with the checksum placeholder still
zero (offsets 10–11). -/
def IPv4Header.base (h : IPv4Header) (payloadLen : Nat) : List Nat :=
  let hdrLen := h.ihl * 4
  let total := hdrLen + payloadLen
  let flags := ((0 <<< 2) ||| ((if h.df then 1 else 0) <<< 1) |||
    (if h.mf then 1 else 0)) &&& 0x7
  let fragField := ((flags <<< 13) ||| h.fragOffset) &&& 0xFFFF
  [(4 <<< 4) ||| (h.ihl &&& 0x0F),
   (h.dscp <<< 2) ||| h.ecn,
   (total >>> 8) &&& 0xFF, total &&& 0xFF,
   (h.id >>> 8) &&& 0xFF, h.id &&& 0xFF,
   (fragField >>> 8) &&& 0xFF, fragField &&& 0xFF,
   h.ttl, h.protocol,
   0, 0,
   (h.src.getD 0 0) &&& 0xFF, (h.src.getD 1 0) &&& 0xFF,
   (h.src.getD 2 0) &&& 0xFF, (h.src.getD 3 0) &&& 0xFF,
   (h.dst.getD 0 0) &&& 0xFF, (h.dst.getD 1 0) &&& 0xFF,
   (h.dst.getD 2 0) &&& 0xFF, (h.dst.getD 3 0) &&& 0xFF]

/-- `IPv4Header.pack` up to (and excluding) the checksum insertion: the
zero-filled `ihl * 4`-byte buffer with the fixed layout written and the
options copied at offset 20 when `ihl > 5` and options are present. -/
def IPv4Header.packNoChecksum (h : IPv4Header) (payload : List Nat) : List Nat :=
  let b := h.base payload.length ++ List.replicate (h.ihl * 4 - 20) 0
  if 5 < h.ihl ∧ h.optionsBytes ≠ [] then setBytes b 20 h.optionsBytes
  else b

/-- `IPv4Header.pack(payload)`: build the header with a zero checksum
field, compute `ipChecksum` over it, and overwrite bytes 10–11 with the
result (big-endian). -/
def IPv4Header.pack (h : IPv4Header) (payload : List Nat) : List Nat :=
  let b := h.packNoChecksum payload
  let sum := ipChecksum b
  setBytes b 10 [(sum >>> 8) &&& 0xFF, sum &&& 0xFF]

/-- The record returned by `IPv4Header.parse`.  The source renders
`src`/`dst` as dotted strings from the four address bytes; the
four-byte lists carry the same data. -/
structure IPParsed where
  ver : Nat
  ihl : Nat
  dscp : Nat
  ecn : Nat
  totalLength : Nat
  id : Nat
  df : Bool
  mf : Bool
  fragOffset : Nat
  ttl : Nat
  proto : Nat
  src : List Nat
  dst : List Nat
deriving DecidableEq

/-- `IPv4Header.parse(b)`: fixed-offset reads, no checksum validation
(an intentional simplification of the source). -/
def IPv4Header.parse (b : List Nat) : IPParsed :=
  let flagsFrag := ((b.getD 6 0) <<< 8) ||| b.getD 7 0
  { ver := (b.getD 0 0) >>> 4
    ihl := (b.getD 0 0) &&& 0x0F
    dscp := (b.getD 1 0) >>> 2
    ecn := (b.getD 1 0) &&& 0x03
    totalLength := ((b.getD 2 0) <<< 8) ||| b.getD 3 0
    id := ((b.getD 4 0) <<< 8) ||| b.getD 5 0
    df := ((flagsFrag >>> 14) &&& 1) == 1
    mf := ((flagsFrag >>> 13) &&& 1) == 1
    fragOffset := flagsFrag &&& 0x1FFF
    ttl := b.getD 8 0
    proto := b.getD 9 0
    src := [b.getD 12 0, b.getD 13 0, b.getD 14 0, b.getD 15 0]
    dst := [b.getD 16 0, b.getD 17 0, b.getD 18 0, b.getD 19 0] }

/-- The reassembly step of `Server.onFrame(bytes)`: parse the network
header, skip `ihl * 4` bytes, parse the transport header, skip its
declared data offset, and push the remaining payload onto the
reassembly buffer (the subsequent HTTP-completion probe and response
synthesis only read the concatenated buffer). -/
def Server.onFrame (reassembly : List (List Nat)) (bytes : List Nat) : List (List Nat) :=
  let ip := IPv4Header.parse bytes
  let tcpBytes := bytes.drop (ip.ihl * 4)
  let tcp := TCPHeader.parse tcpBytes
  reassembly ++ [tcpBytes.drop tcp.dataOffsetBytes]

/-- `NetworkLink.ACCEPTED_MEDIA`: the frozen list of supported media. -/
def ACCEPTED_MEDIA : List String :=
  ["twisted-pair", "fiber", "coax", "wireless", "arcnet", "token-ring", "localtalk"]

/-- Propagation velocity (m/s) of `mediaDB[this.medium]`, including the
source's `?? 2.00e8` fallback for unknown media. -/
def mediaV (medium : String) : ℚ :=
  if medium = "twisted-pair" then 200000000
  else if medium = "fiber" then 205000000
  else if medium = "coax" then 200000000
  else if medium = "wireless" then 300000000
  else if medium = "arcnet" then 200000000
  else if medium = "token-ring" then 200000000
  else if medium = "localtalk" then 200000000
  else 200000000

/-- `NetworkLink` state.  Timing fields are exact rationals in place of
IEEE doubles; `rx` holds the registered receiver (an opaque value of
the type parameter `ρ`), `none` while unconnected. -/
structure NetworkLink (ρ : Type) where
  name : String
  medium : String
  rateGbps : ℚ
  distanceMeters : ℚ
  fullDuplex : Bool
  baseLatencyMs : ℚ
  jitterMs : ℚ
  lossRate : ℚ
  rx : Option ρ

/-- The distinct `throw` sites of `NetworkLink.connect` (all plain
`Error`s in the source; the receiver-is-a-function `TypeError` is ruled
out by typing here). -/
inductive ConnectError
  | missingMedium
  | unsupportedMedium
  | invalidRate
deriving DecidableEq

/-- `NetworkLink.connect(receiver)`: validate medium and rate, then
register the receiver.  The source wraps the receiver in a
logging-only closure before storing it; the wrapper invokes the given
receiver on exactly the delivered bytes, so the model stores the
receiver itself. -/
def NetworkLink.connect {ρ : Type} (l : NetworkLink ρ) (receiver : ρ) :
    Except ConnectError (NetworkLink ρ) :=
  if l.medium = "" then .error .missingMedium
  else if l.medium ∉ ACCEPTED_MEDIA then .error .unsupportedMedium
  else if l.rateGbps ≤ 0 then .error .invalidRate
  else .ok { l with rx := some receiver }

/-- Outcome of one `NetworkLink.send(frameBytes)` call: dropped for
want of a receiver (warned), dropped by the loss roll (warned), or a
delivery scheduled after the computed delay. -/
inductive SendOutcome
  | droppedNoReceiver
  | droppedLoss
  | scheduled (txDelayMs : ℚ)
deriving DecidableEq

/-- `NetworkLink.send(frameBytes)`.  The three `Math.random()` draws are
passed explicitly, in the order the source takes them: `lossDraw` for
the drop roll, `jitterDraw` for the jitter sample, `duplexDraw` for the
half-duplex back-off.  The function is total: every path returns an
outcome and none throws. -/
def NetworkLink.send {ρ : Type} (l : NetworkLink ρ) (frameBytes : List Nat)
    (lossDraw jitterDraw duplexDraw : ℚ) : SendOutcome :=
  match l.rx with
  | none => .droppedNoReceiver
  | some _ =>
    if lossDraw < l.lossRate then .droppedLoss
    else
      let bits : ℚ := (frameBytes.length : ℚ) * 8
      let bitratebps : ℚ := l.rateGbps * 1000000000
      let tSerializationMs : ℚ := bits / bitratebps * 1000
      let v : ℚ := mediaV l.medium
      let tPropagationMs : ℚ := l.distanceMeters / v * 1000
      let jitter : ℚ := jitterDraw * 2 * l.jitterMs - l.jitterMs
      let totalDelayMs : ℚ :=
        max 0 (l.baseLatencyMs + tSerializationMs + tPropagationMs + jitter)
      let duplexPenaltyMs : ℚ := if l.fullDuplex then 0 else duplexDraw * (0.2 : ℚ)
      .scheduled (totalDelayMs + duplexPenaltyMs)

end NetStack

/-! ## Theorems -/

namespace NetStack

/-! ### Arithmetic and buffer helper lemmas -/


lemma and255 (x : Nat) : x &&& 255 = x % 256 := by
  have h := Nat.and_pow_two_sub_one_eq_mod x 8
  norm_num at h
  exact h

lemma and65535 (x : Nat) : x &&& 65535 = x % 65536 := by
  have h := Nat.and_pow_two_sub_one_eq_mod x 16
  norm_num at h
  exact h

lemma and15 (x : Nat) : x &&& 15 = x % 16 := by
  have h := Nat.and_pow_two_sub_one_eq_mod x 4
  norm_num at h
  exact h

lemma and1 (x : Nat) : x &&& 1 = x % 2 := by
  simpa using Nat.and_pow_two_sub_one_eq_mod x 1

lemma shiftLeft_or_low (a b k : Nat) (hb : b < 2 ^ k) :
    (a <<< k) ||| b = a * 2 ^ k + b := by
  rw [Nat.shiftLeft_eq]
  apply Nat.eq_of_testBit_eq
  intro j
  rw [Nat.testBit_or, Nat.mul_comm, Nat.testBit_mul_pow_two_add a hb j,
    Nat.testBit_mul_pow_two]
  rcases Nat.lt_or_ge j k with hj | hj
  · simp [hj, Nat.not_le.mpr hj]
  · have hbj : b.testBit j = false :=
      Nat.testBit_lt_two_pow (lt_of_lt_of_le hb (Nat.pow_le_pow_right (by norm_num) hj))
    simp [hbj, hj, Nat.not_lt.mpr hj]

lemma two_byte_roundtrip (p : Nat) :
    ((((p >>> 8) &&& 255) <<< 8) ||| (p &&& 255)) = p % 65536 := by
  rw [and255, and255, shiftLeft_or_low _ _ 8 (by omega)]
  rw [Nat.shiftRight_eq_div_pow]
  norm_num
  omega

lemma setBytes_length (buf src : List Nat) (off : Nat)
    (hfit : off + src.length ≤ buf.length) :
    (setBytes buf off src).length = buf.length := by
  simp [setBytes, List.length_take, List.length_drop]
  omega

lemma setBytes_le_length (buf src : List Nat) (off : Nat) (hoff : off ≤ buf.length) :
    off ≤ (setBytes buf off src).length := by
  simp [setBytes, List.length_take, List.length_drop]
  omega

lemma setBytes_getD_lt (buf src : List Nat) (off n : Nat) (hn : n < off)
    (hoff : off ≤ buf.length) :
    (setBytes buf off src).getD n 0 = buf.getD n 0 := by
  unfold setBytes
  rw [List.getD_append _ _ _ _
    (by simp only [List.length_append, List.length_take]; omega)]
  rw [List.getD_append _ _ _ _ (by rw [List.length_take]; omega)]
  rw [List.getD_eq_getElem?_getD, List.getD_eq_getElem?_getD, List.getElem?_take,
    if_pos hn]

lemma setBytes_append_mid (A src B newsrc : List Nat) (h : newsrc.length = src.length) :
    setBytes (A ++ src ++ B) A.length newsrc = A ++ newsrc ++ B := by
  unfold setBytes
  rw [h]
  rw [List.append_assoc A src B]
  rw [List.take_left' rfl]
  rw [← List.append_assoc A src B]
  rw [show A.length + src.length = (A ++ src).length from (List.length_append A src).symm]
  rw [List.drop_left' rfl]

lemma getD_append_mid (A src B : List Nat) (k : Nat) (hk : k < src.length) :
    (A ++ src ++ B).getD (A.length + k) 0 = src.getD k 0 := by
  rw [List.append_assoc]
  rw [List.getD_append_right _ _ _ _ (Nat.le_add_right _ _)]
  simp only [Nat.add_sub_cancel_left]
  rw [List.getD_append _ _ _ _ hk]


/-! ### Segmentation lemmas -/

lemma segmentGo_flatten (M : Nat) (bytes : List Nat) (hM : 0 < M) (i : Nat) :
    (segmentGo M bytes i).flatten = bytes.drop i := by
  refine segmentGo.induct M bytes
    (fun j => (segmentGo M bytes j).flatten = bytes.drop j) ?_ ?_ i
  · intro x hx ih
    rw [segmentGo, dif_pos hx, List.flatten_cons, ih,
      show bytes.drop (x + M) = (bytes.drop x).drop M from (List.drop_drop M x bytes).symm,
      List.take_append_drop]
  · intro x hx
    rw [segmentGo, dif_neg hx]
    have hlen : bytes.length ≤ x := by
      rcases Nat.lt_or_ge x bytes.length with h1 | h1
      · exact absurd ⟨hM, h1⟩ hx
      · exact h1
    simp [List.drop_eq_nil_iff.mpr hlen]

lemma segmentGo_getD (M : Nat) (bytes : List Nat) (hM : 0 < M) (i : Nat) :
    ∀ k, k < (segmentGo M bytes i).length →
      (segmentGo M bytes i).getD k [] = (bytes.drop (i + k * M)).take M := by
  refine segmentGo.induct M bytes
    (fun j => ∀ k, k < (segmentGo M bytes j).length →
      (segmentGo M bytes j).getD k [] = (bytes.drop (j + k * M)).take M) ?_ ?_ i
  · intro x hx ih k hk
    rw [segmentGo, dif_pos hx]
    cases k with
    | zero => simp
    | succ k2 =>
      rw [List.getD_cons_succ]
      rw [ih k2 (by rw [segmentGo, dif_pos hx] at hk; simpa using hk)]
      have harith : x + M + k2 * M = x + (k2 + 1) * M := by ring
      rw [harith]
  · intro x hx k hk
    rw [segmentGo, dif_neg hx] at hk
    simp at hk

lemma segmentGo_dropLast (M : Nat) (bytes : List Nat) (hM : 0 < M) (i : Nat) :
    ∀ s ∈ (segmentGo M bytes i).dropLast, s.length = M := by
  refine segmentGo.induct M bytes
    (fun j => ∀ s ∈ (segmentGo M bytes j).dropLast, s.length = M) ?_ ?_ i
  · intro x hx ih s hs
    rw [segmentGo, dif_pos hx] at hs
    rcases hrec : segmentGo M bytes (x + M) with _ | ⟨t, ts⟩
    · rw [hrec] at hs
      simp at hs
    · rw [hrec] at hs
      rw [List.dropLast_cons₂] at hs
      rcases List.mem_cons.mp hs with h1 | h2
      · subst h1
        have hg : 0 < M ∧ x + M < bytes.length := by
          by_contra hc
          rw [segmentGo, dif_neg hc] at hrec
          exact List.cons_ne_nil t ts hrec.symm
        simp only [List.length_take, List.length_drop]
        omega
      · rw [← hrec] at h2
        exact ih s h2
  · intro x hx s hs
    rw [segmentGo, dif_neg hx] at hs
    simp at hs

/-- C1: `segment(P, M)` with `M > 0` produces the ordered slices
covering `[k*M, min(|P|, (k+1)*M))`; their concatenation in order is
`P`, every slice except possibly the last has length exactly `M`, and an
empty payload yields zero slices. -/
theorem segment_roundtrip_law (P : List Nat) (M : Nat) (hM : 0 < M) :
    (segment P M).flatten = P
    ∧ (∀ k, k < (segment P M).length →
        (segment P M).getD k [] = (P.drop (k * M)).take M)
    ∧ (∀ s ∈ (segment P M).dropLast, s.length = M)
    ∧ (P = [] → segment P M = []) := by
  refine ⟨?_, ?_, ?_, ?_⟩
  · simpa using segmentGo_flatten M P hM 0
  · intro k hk
    simpa using segmentGo_getD M P hM 0 k hk
  · exact segmentGo_dropLast M P hM 0
  · intro hP
    subst hP
    show segmentGo M [] 0 = []
    rw [segmentGo]
    simp

/-- C1 witness: the round-trip law evaluated at the concrete payload
`[1,2,3,4,5]` with maximum segment size `2`. -/
theorem segment_roundtrip_law_witness :
    0 < 2
    ∧ ((segment [1, 2, 3, 4, 5] 2).flatten = [1, 2, 3, 4, 5]
      ∧ (∀ k, k < (segment [1, 2, 3, 4, 5] 2).length →
          (segment [1, 2, 3, 4, 5] 2).getD k [] =
            (([1, 2, 3, 4, 5] : List Nat).drop (k * 2)).take 2)
      ∧ (∀ s ∈ (segment [1, 2, 3, 4, 5] 2).dropLast, s.length = 2)
      ∧ (([1, 2, 3, 4, 5] : List Nat) = [] → segment [1, 2, 3, 4, 5] 2 = [])) :=
  ⟨by decide, segment_roundtrip_law [1, 2, 3, 4, 5] 2 (by decide)⟩

/-! ### Checksum lemmas: the per-word carry fold of `ipChecksum` agrees
with the spec's sum-then-fold-until-no-carry description -/

lemma shiftRight16_eq (x : Nat) : x >>> 16 = x / 65536 := by
  have h := Nat.shiftRight_eq_div_pow x 16
  norm_num at h
  exact h

lemma shiftRight8_eq (x : Nat) : x >>> 8 = x / 256 := by
  have h := Nat.shiftRight_eq_div_pow x 8
  norm_num at h
  exact h

lemma fold16_eq (x : Nat) : fold16 x = x % 65536 + x / 65536 := by
  unfold fold16
  rw [and65535, shiftRight16_eq]

lemma ipSumGo_eq_words (s : Nat) (bytes : List Nat) :
    ipSumGo s bytes = (specWords bytes).foldl (fun t w => fold16 (t + w)) s := by
  induction bytes using specWords.induct generalizing s with
  | case1 => rfl
  | case2 a => rfl
  | case3 a b rest ih =>
    simp only [ipSumGo, specWords, List.foldl_cons]
    exact ih _

lemma wordFold_le (ws : List Nat) (hw : ∀ w ∈ ws, w < 65536) :
    ∀ s, s ≤ 65535 → ws.foldl (fun t w => fold16 (t + w)) s ≤ 65535 := by
  induction ws with
  | nil => intro s hs; simpa using hs
  | cons w rest ih =>
    intro s hs
    rw [List.foldl_cons]
    refine ih (fun x hx => hw x (List.mem_cons_of_mem w hx)) _ ?_
    have hww : w < 65536 := hw w (List.mem_cons_self w rest)
    rw [fold16_eq]
    omega

lemma wordFold_mod (ws : List Nat) :
    ∀ s, ws.foldl (fun t w => fold16 (t + w)) s % 65535 = (s + ws.sum) % 65535 := by
  induction ws with
  | nil => intro s; simp
  | cons w rest ih =>
    intro s
    rw [List.foldl_cons, List.sum_cons, ih (fold16 (s + w))]
    have h1 : fold16 (s + w) % 65535 = (s + w) % 65535 := by
      rw [fold16_eq]
      omega
    omega

lemma wordFold_zero_iff (ws : List Nat) (hw : ∀ w ∈ ws, w < 65536) :
    ∀ s, s ≤ 65535 →
      (ws.foldl (fun t w => fold16 (t + w)) s = 0 ↔ s = 0 ∧ ws.sum = 0) := by
  induction ws with
  | nil => intro s hs; simp
  | cons w rest ih =>
    intro s hs
    rw [List.foldl_cons, List.sum_cons]
    have hww : w < 65536 := hw w (List.mem_cons_self w rest)
    have hf : fold16 (s + w) ≤ 65535 := by
      rw [fold16_eq]
      omega
    have hz : fold16 (s + w) = 0 ↔ s = 0 ∧ w = 0 := by
      rw [fold16_eq]
      omega
    rw [ih (fun x hx => hw x (List.mem_cons_of_mem w hx)) _ hf]
    omega

lemma specFoldCarries_lt (s : Nat) : specFoldCarries s < 65536 := by
  induction s using specFoldCarries.induct with
  | case1 s hs =>
    rw [specFoldCarries, if_pos hs]
    exact hs
  | case2 s hs ih =>
    rw [specFoldCarries, if_neg hs]
    exact ih

lemma specFoldCarries_mod (s : Nat) : specFoldCarries s % 65535 = s % 65535 := by
  induction s using specFoldCarries.induct with
  | case1 s hs => rw [specFoldCarries, if_pos hs]
  | case2 s hs ih =>
    rw [specFoldCarries, if_neg hs, ih, and65535, shiftRight16_eq]
    omega

lemma specFoldCarries_zero_iff (s : Nat) : specFoldCarries s = 0 ↔ s = 0 := by
  induction s using specFoldCarries.induct with
  | case1 s hs => rw [specFoldCarries, if_pos hs]
  | case2 s hs ih =>
    rw [specFoldCarries, if_neg hs, ih, and65535, shiftRight16_eq]
    omega

lemma specWords_lt (bytes : List Nat) (hb : ∀ x ∈ bytes, x < 256) :
    ∀ w ∈ specWords bytes, w < 65536 := by
  have h8 : (2 : Nat) ^ 8 = 256 := by norm_num
  induction bytes using specWords.induct with
  | case1 =>
    intro w hw
    simp [specWords] at hw
  | case2 a =>
    intro w hw
    simp only [specWords, List.mem_singleton] at hw
    subst hw
    have ha : a < 256 := hb a (by simp)
    rw [shiftLeft_or_low a 0 8 (by norm_num), h8]
    omega
  | case3 a b rest ih =>
    intro w hw
    simp only [specWords, List.mem_cons] at hw
    rcases hw with h1 | h2
    · subst h1
      have ha : a < 256 := hb a (by simp)
      have hbb : b < 256 := hb b (by simp)
      rw [shiftLeft_or_low a b 8 (by omega), h8]
      omega
    · exact ih (fun x hx => hb x (by simp [hx])) w h2

lemma ipSumGo_le (bytes : List Nat) (hb : ∀ x ∈ bytes, x < 256) :
    ipSumGo 0 bytes ≤ 65535 := by
  rw [ipSumGo_eq_words]
  exact wordFold_le (specWords bytes) (specWords_lt bytes hb) 0 (by omega)

lemma ipSumGo_eq_specFoldCarries (bytes : List Nat) (hb : ∀ x ∈ bytes, x < 256) :
    ipSumGo 0 bytes = specFoldCarries ((specWords bytes).sum) := by
  have hw := specWords_lt bytes hb
  have h1 := wordFold_le (specWords bytes) hw 0 (by omega)
  have h2 := wordFold_mod (specWords bytes) 0
  have h3 := wordFold_zero_iff (specWords bytes) hw 0 (by omega)
  have g1 := specFoldCarries_lt ((specWords bytes).sum)
  have g2 := specFoldCarries_mod ((specWords bytes).sum)
  have g3 := specFoldCarries_zero_iff ((specWords bytes).sum)
  rw [ipSumGo_eq_words]
  omega

lemma ipChecksum_eq_spec (bytes : List Nat) (hb : ∀ x ∈ bytes, x < 256) :
    ipChecksum bytes = 65535 - specFoldCarries ((specWords bytes).sum) := by
  unfold ipChecksum
  rw [and65535, ipSumGo_eq_specFoldCarries bytes hb]
  have g1 := specFoldCarries_lt ((specWords bytes).sum)
  omega

/-! ### IPv4 pack structure lemmas -/

lemma and63 (x : Nat) : x &&& 63 = x % 64 := by
  have h := Nat.and_pow_two_sub_one_eq_mod x 6
  norm_num at h
  exact h

lemma and3 (x : Nat) : x &&& 3 = x % 4 := by
  have h := Nat.and_pow_two_sub_one_eq_mod x 2
  norm_num at h
  exact h

lemma or_lt_256 (a b : Nat) (ha : a < 256) (hb : b < 256) : a ||| b < 256 := by
  have h8 : (2 : Nat) ^ 8 = 256 := by norm_num
  have h := @Nat.or_lt_two_pow a b 8 (by omega) (by omega)
  omega

lemma ipv4_base_length (h : IPv4Header) (n : Nat) : (h.base n).length = 20 := rfl

lemma IPv4Header.make_base_lt (src dst : List Nat) (dscp ecn id : Nat) (df mf : Bool)
    (fragOffset ttl protocol : Nat) (opts : List Nat) (n : Nat) :
    ∀ x ∈ (IPv4Header.make src dst dscp ecn id df mf fragOffset ttl protocol opts).base n,
      x < 256 := by
  intro x hx
  simp only [IPv4Header.make, IPv4Header.base, List.mem_cons, List.not_mem_nil,
    or_false] at hx
  rcases hx with rfl | rfl | rfl | rfl | rfl | rfl | rfl | rfl | rfl | rfl | rfl | rfl |
    rfl | rfl | rfl | rfl | rfl | rfl | rfl | rfl
  case _ =>
    refine or_lt_256 _ _ (by decide) ?_
    rw [and15]
    omega
  case _ =>
    refine or_lt_256 _ _ ?_ ?_
    · rw [and63, Nat.shiftLeft_eq]
      norm_num
      omega
    · rw [and3]
      omega
  all_goals try { rw [and255]; omega }
  all_goals omega

lemma IPv4Header.make_packNoChecksum_lt (src dst : List Nat) (dscp ecn id : Nat)
    (df mf : Bool) (fragOffset ttl protocol : Nat) (opts payload : List Nat) :
    ∀ x ∈ (IPv4Header.make src dst dscp ecn id df mf fragOffset ttl
      protocol opts).packNoChecksum payload, x < 256 := by
  intro x hx
  have hbase := IPv4Header.make_base_lt src dst dscp ecn id df mf fragOffset ttl
    protocol opts payload.length
  have hbuf : ∀ y ∈ (IPv4Header.make src dst dscp ecn id df mf fragOffset ttl
      protocol opts).base payload.length ++
      List.replicate ((IPv4Header.make src dst dscp ecn id df mf fragOffset ttl
        protocol opts).ihl * 4 - 20) 0, y < 256 := by
    intro y hy
    rcases List.mem_append.mp hy with h1 | h2
    · exact hbase y h1
    · rw [List.eq_of_mem_replicate h2]
      omega
  have hopts : ∀ y ∈ (IPv4Header.make src dst dscp ecn id df mf fragOffset ttl
      protocol opts).optionsBytes, y < 256 := by
    intro y hy
    simp only [IPv4Header.make] at hy
    rcases List.mem_map.mp hy with ⟨a, _, ha2⟩
    omega
  unfold IPv4Header.packNoChecksum at hx
  split at hx
  · unfold setBytes at hx
    rcases List.mem_append.mp hx with h1 | h2
    · rcases List.mem_append.mp h1 with h3 | h4
      · exact hbuf x (List.take_subset _ _ h3)
      · exact hopts x h4
    · exact hbuf x (List.drop_subset _ _ h2)
  · exact hbuf x hx

lemma IPv4Header.packNoChecksum_le_length (h : IPv4Header) (payload : List Nat) :
    20 ≤ (h.packNoChecksum payload).length := by
  have hb : 20 ≤ (h.base payload.length ++ List.replicate (h.ihl * 4 - 20) 0).length := by
    rw [List.length_append, ipv4_base_length]
    omega
  unfold IPv4Header.packNoChecksum
  split
  · exact setBytes_le_length _ _ 20 hb
  · exact hb

lemma IPv4Header.packNoChecksum_getD (h : IPv4Header) (payload : List Nat) (n : Nat)
    (hn : n < 20) :
    (h.packNoChecksum payload).getD n 0 = (h.base payload.length).getD n 0 := by
  have hb : 20 ≤ (h.base payload.length ++ List.replicate (h.ihl * 4 - 20) 0).length := by
    rw [List.length_append, ipv4_base_length]
    omega
  unfold IPv4Header.packNoChecksum
  split
  · rw [setBytes_getD_lt _ _ 20 n hn hb]
    exact List.getD_append _ _ _ _ (by rw [ipv4_base_length]; omega)
  · exact List.getD_append _ _ _ _ (by rw [ipv4_base_length]; omega)

lemma IPv4Header.pack_getD_lt10 (h : IPv4Header) (payload : List Nat) (n : Nat)
    (hn : n < 10) :
    (h.pack payload).getD n 0 = (h.base payload.length).getD n 0 := by
  unfold IPv4Header.pack
  rw [setBytes_getD_lt _ _ 10 n hn
    (le_trans (by omega) (IPv4Header.packNoChecksum_le_length h payload))]
  exact IPv4Header.packNoChecksum_getD h payload n (by omega)

lemma setBytes_setBytes (buf s1 s2 : List Nat) (off : Nat) (hlen : s1.length = s2.length)
    (hoff : off ≤ buf.length) :
    setBytes (setBytes buf off s1) off s2 = setBytes buf off s2 := by
  have ht : (buf.take off).length = off := by
    rw [List.length_take]
    omega
  unfold setBytes
  rw [List.append_assoc (buf.take off) s1 (buf.drop (off + s1.length))]
  rw [List.take_left' ht]
  rw [← List.append_assoc (buf.take off) s1 (buf.drop (off + s1.length))]
  rw [show off + s2.length = (buf.take off ++ s1).length from by
    rw [List.length_append, ht, hlen]]
  rw [List.drop_left' rfl]
  rw [hlen, List.length_append, ht, hlen]

lemma setBytes_getD_mid (buf src : List Nat) (off k : Nat) (hk : k < src.length)
    (hoff : off ≤ buf.length) :
    (setBytes buf off src).getD (off + k) 0 = src.getD k 0 := by
  have ht : (buf.take off).length = off := by
    rw [List.length_take]
    omega
  have h := getD_append_mid (buf.take off) src (buf.drop (off + src.length)) k hk
  rw [ht] at h
  exact h

lemma setBytes_eq_self_two (buf : List Nat) (off x y : Nat)
    (hfit : off + 2 ≤ buf.length) (hx : buf.getD off 0 = x) (hy : buf.getD (off + 1) 0 = y) :
    setBytes buf off [x, y] = buf := by
  have h1 : buf.drop off = buf.getD off 0 :: buf.drop (off + 1) := by
    rw [List.getD_eq_getElem buf 0 (by omega)]
    exact List.drop_eq_getElem_cons (by omega)
  have h2 : buf.drop (off + 1) = buf.getD (off + 1) 0 :: buf.drop (off + 2) := by
    rw [List.getD_eq_getElem buf 0 (by omega)]
    exact List.drop_eq_getElem_cons (by omega)
  unfold setBytes
  rw [show ([x, y] : List Nat).length = 2 from rfl, ← hx, ← hy]
  calc buf.take off ++ [buf.getD off 0, buf.getD (off + 1) 0] ++ buf.drop (off + 2)
      = buf.take off ++ buf.drop off := by
        rw [h1, h2]
        simp
    _ = buf := List.take_append_drop off buf

lemma IPv4Header.pack_zeroed (h : IPv4Header) (payload : List Nat) :
    setBytes (h.pack payload) 10 [0, 0] = h.packNoChecksum payload := by
  simp only [IPv4Header.pack]
  rw [setBytes_setBytes (h.packNoChecksum payload)
    [ipChecksum (h.packNoChecksum payload) >>> 8 &&& 255,
     ipChecksum (h.packNoChecksum payload) &&& 255] [0, 0] 10 rfl
    (le_trans (by omega) (IPv4Header.packNoChecksum_le_length h payload))]
  refine setBytes_eq_self_two _ 10 0 0
    (le_trans (by omega) (IPv4Header.packNoChecksum_le_length h payload)) ?_ ?_
  · rw [IPv4Header.packNoChecksum_getD h payload 10 (by omega)]
    rfl
  · rw [IPv4Header.packNoChecksum_getD h payload 11 (by omega)]
    rfl

lemma IPv4Header.pack_checksum_bytes (h : IPv4Header) (payload : List Nat) :
    (h.pack payload).getD 10 0 = (ipChecksum (h.packNoChecksum payload) >>> 8) &&& 255
    ∧ (h.pack payload).getD 11 0 = ipChecksum (h.packNoChecksum payload) &&& 255 := by
  have hoff : 10 ≤ (h.packNoChecksum payload).length :=
    le_trans (by omega) (IPv4Header.packNoChecksum_le_length h payload)
  constructor
  · simp only [IPv4Header.pack]
    have h0 := setBytes_getD_mid (h.packNoChecksum payload)
      [(ipChecksum (h.packNoChecksum payload) >>> 8) &&& 255,
       ipChecksum (h.packNoChecksum payload) &&& 255] 10 0 (by simp) hoff
    simpa using h0
  · simp only [IPv4Header.pack]
    have h1 := setBytes_getD_mid (h.packNoChecksum payload)
      [(ipChecksum (h.packNoChecksum payload) >>> 8) &&& 255,
       ipChecksum (h.packNoChecksum payload) &&& 255] 10 1 (by simp) hoff
    simpa using h1

/-! ### TCP pack structure lemmas -/

lemma tcp_base_length (h : TCPHeader) : h.base.length = 20 := rfl

lemma TCPHeader.pack_getD (h : TCPHeader) (n : Nat) (hn : n < 20) :
    h.pack.getD n 0 = h.base.getD n 0 := by
  have hb : 20 ≤ (h.base ++ List.replicate (h.dataOffsetWords * 4 - 20) 0).length := by
    rw [List.length_append, tcp_base_length]
    omega
  unfold TCPHeader.pack
  split
  · rw [setBytes_getD_lt _ _ 20 n hn hb]
    exact List.getD_append _ _ _ _ (by rw [tcp_base_length]; omega)
  · exact List.getD_append _ _ _ _ (by rw [tcp_base_length]; omega)

lemma tcp_base_getD_0 (h : TCPHeader) :
    h.base.getD 0 0 = (h.srcPort >>> 8) &&& 255 := rfl

lemma tcp_base_getD_1 (h : TCPHeader) : h.base.getD 1 0 = h.srcPort &&& 255 := rfl

lemma tcp_base_getD_2 (h : TCPHeader) :
    h.base.getD 2 0 = (h.dstPort >>> 8) &&& 255 := rfl

lemma tcp_base_getD_3 (h : TCPHeader) : h.base.getD 3 0 = h.dstPort &&& 255 := rfl

lemma tcp_base_getD_13 (h : TCPHeader) : h.base.getD 13 0 = flagsByteOf h.flags := rfl

lemma tcp_base_getD_14 (h : TCPHeader) :
    h.base.getD 14 0 = (h.windowSize >>> 8) &&& 255 := rfl

lemma tcp_base_getD_15 (h : TCPHeader) :
    h.base.getD 15 0 = h.windowSize &&& 255 := rfl

lemma ipv4_base_getD_0 (h : IPv4Header) (n : Nat) :
    (h.base n).getD 0 0 = (4 <<< 4) ||| (h.ihl &&& 15) := rfl

lemma ipv4_base_getD_2 (h : IPv4Header) (n : Nat) :
    (h.base n).getD 2 0 = ((h.ihl * 4 + n) >>> 8) &&& 255 := rfl

lemma ipv4_base_getD_3 (h : IPv4Header) (n : Nat) :
    (h.base n).getD 3 0 = (h.ihl * 4 + n) &&& 255 := rfl

/-! ### Claims about the transport-header codec -/

/-- C2 counterexample: two transport headers that differ only in their
sequence number (5 vs 7) decode to identical results — `parse` reads
only bytes 0–3 and 12–15, so decoding cannot reproduce the sequence or
acknowledgment numbers. -/
theorem tcp_parse_drops_seq :
    TCPHeader.parse ((TCPHeader.make 53000 443 5 1 5
        ⟨false, false, false, false, true, true, false, false, false⟩ 65535 0 []).pack)
      = TCPHeader.parse ((TCPHeader.make 53000 443 7 1 5
        ⟨false, false, false, false, true, true, false, false, false⟩ 65535 0 []).pack)
    ∧ (TCPHeader.make 53000 443 5 1 5
        ⟨false, false, false, false, true, true, false, false, false⟩ 65535 0 []).seq
      ≠ (TCPHeader.make 53000 443 7 1 5
        ⟨false, false, false, false, true, true, false, false, false⟩ 65535 0 []).seq := by
  decide

/-- C2 (amended): decoding the encoded transport header reproduces the
source port, destination port and window size exactly (for 16-bit
values), and returns the encoded flags byte unchanged; the sequence and
acknowledgment numbers are not part of the decoded record at all. -/
theorem tcp_parse_pack_partial (srcPort dstPort seq ack dow windowSize urgentPtr : Nat)
    (f : TCPFlags) (opts : List Nat) (hsp : srcPort < 65536) (hdp : dstPort < 65536)
    (hws : windowSize < 65536) (hdow : 5 ≤ dow) :
    (TCPHeader.parse (TCPHeader.make srcPort dstPort seq ack dow f windowSize
      urgentPtr opts).pack).srcPort = srcPort
    ∧ (TCPHeader.parse (TCPHeader.make srcPort dstPort seq ack dow f windowSize
      urgentPtr opts).pack).dstPort = dstPort
    ∧ (TCPHeader.parse (TCPHeader.make srcPort dstPort seq ack dow f windowSize
      urgentPtr opts).pack).windowSize = windowSize
    ∧ (TCPHeader.parse (TCPHeader.make srcPort dstPort seq ack dow f windowSize
      urgentPtr opts).pack).flagsHex = flagsByteOf f := by
  simp only [TCPHeader.parse]
  rw [TCPHeader.pack_getD _ 0 (by omega), TCPHeader.pack_getD _ 1 (by omega),
    TCPHeader.pack_getD _ 2 (by omega), TCPHeader.pack_getD _ 3 (by omega),
    TCPHeader.pack_getD _ 13 (by omega), TCPHeader.pack_getD _ 14 (by omega),
    TCPHeader.pack_getD _ 15 (by omega)]
  rw [tcp_base_getD_0, tcp_base_getD_1, tcp_base_getD_2,
    tcp_base_getD_3, tcp_base_getD_13, tcp_base_getD_14,
    tcp_base_getD_15]
  refine ⟨?_, ?_, ?_, rfl⟩
  · rw [show (TCPHeader.make srcPort dstPort seq ack dow f windowSize urgentPtr
      opts).srcPort = srcPort from rfl, two_byte_roundtrip]
    omega
  · rw [show (TCPHeader.make srcPort dstPort seq ack dow f windowSize urgentPtr
      opts).dstPort = dstPort from rfl, two_byte_roundtrip]
    omega
  · rw [show (TCPHeader.make srcPort dstPort seq ack dow f windowSize urgentPtr
      opts).windowSize = windowSize &&& 65535 from rfl, two_byte_roundtrip, and65535]
    omega

/-- C2 witness: the amended round trip at the spec's §8 example header
(53000 → 443, seq 1, ack 1, ACK+PSH, window 65535, no options). -/
theorem tcp_parse_pack_partial_witness :
    (53000 < 65536 ∧ 443 < 65536 ∧ 65535 < 65536 ∧ 5 ≤ 5)
    ∧ ((TCPHeader.parse (TCPHeader.make 53000 443 1 1 5
        ⟨false, false, false, false, true, true, false, false, false⟩ 65535
        0 []).pack).srcPort = 53000
      ∧ (TCPHeader.parse (TCPHeader.make 53000 443 1 1 5
        ⟨false, false, false, false, true, true, false, false, false⟩ 65535
        0 []).pack).dstPort = 443
      ∧ (TCPHeader.parse (TCPHeader.make 53000 443 1 1 5
        ⟨false, false, false, false, true, true, false, false, false⟩ 65535
        0 []).pack).windowSize = 65535
      ∧ (TCPHeader.parse (TCPHeader.make 53000 443 1 1 5
        ⟨false, false, false, false, true, true, false, false, false⟩ 65535
        0 []).pack).flagsHex
        = flagsByteOf ⟨false, false, false, false, true, true, false, false, false⟩) :=
  ⟨by decide, tcp_parse_pack_partial 53000 443 1 1 5 65535 0
    ⟨false, false, false, false, true, true, false, false, false⟩ []
    (by decide) (by decide) (by decide) (by decide)⟩

/-- C10: the NS and CWR control flags are both written to bit 7 of the
flags byte: bit 7 of byte 13 equals `ns OR cwr`, and a header encoded
with `ns = 1, cwr = 0` is byte-identical to the same header encoded with
`ns = 0, cwr = 1` (so no bit of the encoding records NS independently of
CWR). -/
theorem tcp_ns_cwr_collision (srcPort dstPort seq ack dow windowSize urgentPtr : Nat)
    (f : TCPFlags) (opts : List Nat) (hdow : 5 ≤ dow) :
    (((TCPHeader.make srcPort dstPort seq ack dow f windowSize urgentPtr
        opts).pack.getD 13 0 >>> 7) &&& 1) = (if f.ns || f.cwr then 1 else 0)
    ∧ (TCPHeader.make srcPort dstPort seq ack dow
        { f with ns := true, cwr := false } windowSize urgentPtr opts).pack
      = (TCPHeader.make srcPort dstPort seq ack dow
        { f with ns := false, cwr := true } windowSize urgentPtr opts).pack := by
  constructor
  · rw [TCPHeader.pack_getD _ 13 (by omega), tcp_base_getD_13]
    rw [show (TCPHeader.make srcPort dstPort seq ack dow f windowSize urgentPtr
      opts).flags = f from rfl]
    rcases f with ⟨ns, cwr, ecn, urg, ack2, psh, rst, syn, fin⟩
    cases ns <;> cases cwr <;> cases ecn <;> cases urg <;> cases ack2 <;> cases psh <;>
      cases rst <;> cases syn <;> cases fin <;> decide
  · have hfb : flagsByteOf { f with ns := true, cwr := false }
        = flagsByteOf { f with ns := false, cwr := true } := by
      simp [flagsByteOf, Nat.zero_shiftLeft, Nat.or_zero, Nat.zero_or]
    simp only [TCPHeader.pack, TCPHeader.base, TCPHeader.make, hfb]

/-- C10 witness: the collision at a concrete header. -/
theorem tcp_ns_cwr_collision_witness :
    5 ≤ 5
    ∧ ((((TCPHeader.make 53000 443 1 1 5
        ⟨true, false, false, false, true, false, false, false, false⟩ 65535
        0 []).pack.getD 13 0 >>> 7) &&& 1)
        = (if (true : Bool) || (false : Bool) then 1 else 0)
      ∧ (TCPHeader.make 53000 443 1 1 5
        { (⟨true, false, false, false, true, false, false, false, false⟩ : TCPFlags)
          with ns := true, cwr := false } 65535 0 []).pack
        = (TCPHeader.make 53000 443 1 1 5
        { (⟨true, false, false, false, true, false, false, false, false⟩ : TCPFlags)
          with ns := false, cwr := true } 65535 0 []).pack) :=
  ⟨by decide, tcp_ns_cwr_collision 53000 443 1 1 5 65535 0
    ⟨true, false, false, false, true, false, false, false, false⟩ [] (by decide)⟩

/-! ### Claims about the network-header codec -/

/-- C3: the checksum inserted at bytes 10–11 of the packed network
header equals the one's complement (within 16 bits) of the sum of all
big-endian 16-bit words of the header taken with the checksum field as
zero, where carries from bit 16 and above are folded back into the low
16 bits until no carry remains; equivalently, recomputing that folded
word sum over the finished header with the checksum field zeroed yields
the complement of the inserted checksum. -/
theorem ipv4_checksum_onesComplement (h : IPv4Header) (src dst : List Nat)
    (dscp ecn id : Nat) (df mf : Bool) (fragOffset ttl protocol : Nat)
    (opts payload : List Nat)
    (hh : h = IPv4Header.make src dst dscp ecn id df mf fragOffset ttl protocol opts) :
    setBytes (h.pack payload) 10 [0, 0] = h.packNoChecksum payload
    ∧ (h.pack payload).getD 10 0 * 256 + (h.pack payload).getD 11 0
      = 65535 - specFoldCarries ((specWords (h.packNoChecksum payload)).sum)
    ∧ specFoldCarries ((specWords (setBytes (h.pack payload) 10 [0, 0])).sum)
      = 65535 - ((h.pack payload).getD 10 0 * 256 + (h.pack payload).getD 11 0) := by
  subst hh
  have hz := IPv4Header.pack_zeroed
    (IPv4Header.make src dst dscp ecn id df mf fragOffset ttl protocol opts) payload
  have hbytes := IPv4Header.make_packNoChecksum_lt src dst dscp ecn id df mf fragOffset
    ttl protocol opts payload
  have hcs := IPv4Header.pack_checksum_bytes
    (IPv4Header.make src dst dscp ecn id df mf fragOffset ttl protocol opts) payload
  have hip := ipChecksum_eq_spec
    ((IPv4Header.make src dst dscp ecn id df mf fragOffset ttl protocol
      opts).packNoChecksum payload) hbytes
  have hlt := specFoldCarries_lt
    ((specWords ((IPv4Header.make src dst dscp ecn id df mf fragOffset ttl protocol
      opts).packNoChecksum payload)).sum)
  rcases hcs with ⟨hc10, hc11⟩
  rw [and255] at hc10 hc11
  rw [shiftRight8_eq] at hc10
  refine ⟨hz, ?_, ?_⟩
  · rw [hc10, hc11, hip]
    omega
  · rw [hz, hc10, hc11, hip]
    omega

/-- C3 witness: the checksum law at the spec's example header
(src 10.0.0.2, dst 104.18.32.47, id 0x1000, ttl 64, protocol 6, no
options) with an empty payload. -/
theorem ipv4_checksum_onesComplement_witness :
    (IPv4Header.make [10, 0, 0, 2] [104, 18, 32, 47] 0 0 4096 true false 0 64 6 []
      = IPv4Header.make [10, 0, 0, 2] [104, 18, 32, 47] 0 0 4096 true false 0 64 6 [])
    ∧ (setBytes ((IPv4Header.make [10, 0, 0, 2] [104, 18, 32, 47] 0 0 4096 true false
        0 64 6 []).pack []) 10 [0, 0]
      = (IPv4Header.make [10, 0, 0, 2] [104, 18, 32, 47] 0 0 4096 true false
        0 64 6 []).packNoChecksum []
    ∧ ((IPv4Header.make [10, 0, 0, 2] [104, 18, 32, 47] 0 0 4096 true false
        0 64 6 []).pack []).getD 10 0 * 256
      + ((IPv4Header.make [10, 0, 0, 2] [104, 18, 32, 47] 0 0 4096 true false
        0 64 6 []).pack []).getD 11 0
      = 65535 - specFoldCarries ((specWords ((IPv4Header.make [10, 0, 0, 2]
        [104, 18, 32, 47] 0 0 4096 true false 0 64 6 []).packNoChecksum [])).sum)
    ∧ specFoldCarries ((specWords (setBytes ((IPv4Header.make [10, 0, 0, 2]
        [104, 18, 32, 47] 0 0 4096 true false 0 64 6 []).pack []) 10 [0, 0])).sum)
      = 65535 - (((IPv4Header.make [10, 0, 0, 2] [104, 18, 32, 47] 0 0 4096 true false
        0 64 6 []).pack []).getD 10 0 * 256
        + ((IPv4Header.make [10, 0, 0, 2] [104, 18, 32, 47] 0 0 4096 true false
        0 64 6 []).pack []).getD 11 0)) :=
  ⟨rfl, ipv4_checksum_onesComplement
    (IPv4Header.make [10, 0, 0, 2] [104, 18, 32, 47] 0 0 4096 true false 0 64 6 [])
    [10, 0, 0, 2] [104, 18, 32, 47] 0 0 4096 true false 0 64 6 [] [] rfl⟩

lemma IPv4Header.make_packNoChecksum_length (src dst : List Nat) (dscp ecn id : Nat)
    (df mf : Bool) (fragOffset ttl protocol : Nat) (opts payload : List Nat) :
    ((IPv4Header.make src dst dscp ecn id df mf fragOffset ttl
      protocol opts).packNoChecksum payload).length = (5 + (opts.length + 3) / 4) * 4 := by
  have hihl : (IPv4Header.make src dst dscp ecn id df mf fragOffset ttl
      protocol opts).ihl = 5 + (opts.length + 3) / 4 := rfl
  have hol : (IPv4Header.make src dst dscp ecn id df mf fragOffset ttl
      protocol opts).optionsBytes.length = opts.length := by
    simp [IPv4Header.make]
  unfold IPv4Header.packNoChecksum
  split
  · rw [setBytes_length]
    · rw [List.length_append, ipv4_base_length, List.length_replicate, hihl]
      omega
    · rw [List.length_append, ipv4_base_length, List.length_replicate, hihl, hol]
      omega
  · rw [List.length_append, ipv4_base_length, List.length_replicate, hihl]
    omega

lemma IPv4Header.make_pack_length (src dst : List Nat) (dscp ecn id : Nat)
    (df mf : Bool) (fragOffset ttl protocol : Nat) (opts payload : List Nat) :
    ((IPv4Header.make src dst dscp ecn id df mf fragOffset ttl
      protocol opts).pack payload).length = (5 + (opts.length + 3) / 4) * 4 := by
  simp only [IPv4Header.pack]
  rw [setBytes_length]
  · exact IPv4Header.make_packNoChecksum_length src dst dscp ecn id df mf fragOffset
      ttl protocol opts payload
  · rw [IPv4Header.make_packNoChecksum_length src dst dscp ecn id df mf fragOffset
      ttl protocol opts payload]
    simp only [List.length_cons, List.length_nil]
    omega

/-- C5 counterexample: 44 option bytes overflow the 4-bit
header-length-in-words field (`ihl` = 16), yet the encoder raises
nothing and returns a packed 64-byte buffer. -/
theorem ipv4_pack_accepts_oversized_options :
    ((IPv4Header.make [10, 0, 0, 2] [104, 18, 32, 47] 0 0 4096 true false 0 64 6
      (List.replicate 44 0)).pack []).length = 64 := by
  have h := IPv4Header.make_pack_length [10, 0, 0, 2] [104, 18, 32, 47] 0 0 4096
    true false 0 64 6 (List.replicate 44 0) []
  simpa using h

/-- C5 (amended): the network-header encoder performs no validation and
never fails: for every field set — oversized options and malformed or
missing address components included — it returns a packed buffer of
`(5 + ceil(options/4)) * 4` bytes (oversized options silently truncate
the stored ihl nibble, and address components are silently masked to
single bytes or defaulted to zero). -/
theorem ipv4_pack_never_fails (src dst : List Nat) (dscp ecn id : Nat) (df mf : Bool)
    (fragOffset ttl protocol : Nat) (opts payload : List Nat) :
    ((IPv4Header.make src dst dscp ecn id df mf fragOffset ttl protocol opts).pack
      payload).length = (5 + (opts.length + 3) / 4) * 4 :=
  IPv4Header.make_pack_length src dst dscp ecn id df mf fragOffset ttl protocol
    opts payload

/-- C9 counterexample: with 44 option bytes, `ihl` = 16 overflows the
4-bit field — the stored low nibble of byte 0 is 0, not
`5 + ceil(44/4) = 16`. -/
theorem ipv4_header_invariant_overflow :
    ((IPv4Header.make [10, 0, 0, 2] [104, 18, 32, 47] 0 0 4096 true false 0 64 6
      (List.replicate 44 0)).pack []).getD 0 0 &&& 15
    ≠ 5 + ((List.replicate 44 (0 : Nat)).length + 3) / 4 := by
  decide

/-- C9 (amended): provided the options fit the nibble (at most 40
bytes, so `ihl ≤ 15`) and the total length fits 16 bits, the stored
low nibble of byte 0 equals `5 + ceil(options/4)` and the total-length
field at bytes 2–3 equals `ihl * 4 + payloadLength`. -/
theorem ipv4_header_invariant (src dst : List Nat) (dscp ecn id : Nat) (df mf : Bool)
    (fragOffset ttl protocol : Nat) (opts payload : List Nat)
    (hopts : opts.length ≤ 40)
    (htot : (5 + (opts.length + 3) / 4) * 4 + payload.length < 65536) :
    ((IPv4Header.make src dst dscp ecn id df mf fragOffset ttl protocol opts).pack
      payload).getD 0 0 &&& 15 = 5 + (opts.length + 3) / 4
    ∧ ((IPv4Header.make src dst dscp ecn id df mf fragOffset ttl protocol opts).pack
        payload).getD 2 0 * 256
      + ((IPv4Header.make src dst dscp ecn id df mf fragOffset ttl protocol opts).pack
        payload).getD 3 0
      = (5 + (opts.length + 3) / 4) * 4 + payload.length := by
  have hihl : (IPv4Header.make src dst dscp ecn id df mf fragOffset ttl
      protocol opts).ihl = 5 + (opts.length + 3) / 4 := rfl
  have h16 : (2 : Nat) ^ 4 = 16 := by norm_num
  constructor
  · rw [IPv4Header.pack_getD_lt10 _ payload 0 (by omega), ipv4_base_getD_0, hihl]
    have hsmall : (5 + (opts.length + 3) / 4) &&& 15 = 5 + (opts.length + 3) / 4 := by
      rw [and15]
      omega
    rw [hsmall, shiftLeft_or_low 4 (5 + (opts.length + 3) / 4) 4 (by rw [h16]; omega),
      h16, and15]
    omega
  · rw [IPv4Header.pack_getD_lt10 _ payload 2 (by omega),
      IPv4Header.pack_getD_lt10 _ payload 3 (by omega),
      ipv4_base_getD_2, ipv4_base_getD_3, hihl]
    rw [and255, and255, shiftRight8_eq]
    omega

/-- C9 witness: the header invariant at a concrete field set with four
option bytes and a two-byte payload. -/
theorem ipv4_header_invariant_witness :
    (([1, 2, 3, 4] : List Nat).length ≤ 40
      ∧ (5 + (([1, 2, 3, 4] : List Nat).length + 3) / 4) * 4
        + ([7, 7] : List Nat).length < 65536)
    ∧ (((IPv4Header.make [10, 0, 0, 2] [104, 18, 32, 47] 0 0 4096 true false 0 64 6
        [1, 2, 3, 4]).pack [7, 7]).getD 0 0 &&& 15
        = 5 + (([1, 2, 3, 4] : List Nat).length + 3) / 4
      ∧ ((IPv4Header.make [10, 0, 0, 2] [104, 18, 32, 47] 0 0 4096 true false 0 64 6
        [1, 2, 3, 4]).pack [7, 7]).getD 2 0 * 256
        + ((IPv4Header.make [10, 0, 0, 2] [104, 18, 32, 47] 0 0 4096 true false 0 64 6
        [1, 2, 3, 4]).pack [7, 7]).getD 3 0
        = (5 + (([1, 2, 3, 4] : List Nat).length + 3) / 4) * 4
          + ([7, 7] : List Nat).length) :=
  ⟨⟨by decide, by decide⟩, ipv4_header_invariant [10, 0, 0, 2] [104, 18, 32, 47]
    0 0 4096 true false 0 64 6 [1, 2, 3, 4] [7, 7] (by decide) (by decide)⟩

/-! ### Claims about the link and the reassembly pipeline -/

/-- C6: `connect` fails with a configuration error exactly when the
requested medium is outside the supported enumerated set or the
configured rate is nonpositive; for every supported medium and positive
rate it succeeds, registers the receiver callback, and leaves the link
connected (`rx` set). -/
theorem connect_validates {ρ : Type} (l : NetworkLink ρ) (receiver : ρ) :
    ((l.medium ∉ ACCEPTED_MEDIA ∨ l.rateGbps ≤ 0) →
      ∃ e, l.connect receiver = Except.error e)
    ∧ (l.medium ∈ ACCEPTED_MEDIA → 0 < l.rateGbps →
      l.connect receiver = Except.ok { l with rx := some receiver }
        ∧ ({ l with rx := some receiver } : NetworkLink ρ).rx.isSome = true) := by
  constructor
  · intro hbad
    unfold NetworkLink.connect
    split
    · exact ⟨_, rfl⟩
    · split
      · exact ⟨_, rfl⟩
      · split
        · exact ⟨_, rfl⟩
        · rename_i h1 h2 h3
          rcases hbad with hb | hb
          · exact absurd hb h2
          · exact absurd hb h3
  · intro hmem hrate
    unfold NetworkLink.connect
    rw [if_neg ?hm, if_neg ?hu, if_neg ?hr]
    case hm =>
      intro heq
      rw [heq] at hmem
      simp [ACCEPTED_MEDIA] at hmem
    case hu => exact fun hn => hn hmem
    case hr => exact not_le.mpr hrate
    exact ⟨rfl, rfl⟩

/-- C6 witness: a fiber link at 1 Gb/s connects and registers its
receiver; a link whose medium is "ethernet" (not in the supported set)
fails with an error. -/
theorem connect_validates_witness :
    ((NetworkLink.connect
        { name := "w", medium := "fiber", rateGbps := 1, distanceMeters := 10,
          fullDuplex := true, baseLatencyMs := 1, jitterMs := 0, lossRate := 0,
          rx := (none : Option Nat) } 7
      = Except.ok
        { name := "w", medium := "fiber", rateGbps := 1, distanceMeters := 10,
          fullDuplex := true, baseLatencyMs := 1, jitterMs := 0, lossRate := 0,
          rx := some 7 }
      ∧ ({ name := "w", medium := "fiber", rateGbps := 1, distanceMeters := 10,
           fullDuplex := true, baseLatencyMs := 1, jitterMs := 0, lossRate := 0,
           rx := some 7 } : NetworkLink Nat).rx.isSome = true)
    ∧ ∃ e, NetworkLink.connect
        { name := "b", medium := "ethernet", rateGbps := 1, distanceMeters := 10,
          fullDuplex := true, baseLatencyMs := 1, jitterMs := 0, lossRate := 0,
          rx := (none : Option Nat) } 7 = Except.error e) :=
  ⟨(connect_validates
      { name := "w", medium := "fiber", rateGbps := 1, distanceMeters := 10,
        fullDuplex := true, baseLatencyMs := 1, jitterMs := 0, lossRate := 0,
        rx := (none : Option Nat) } 7).2
      (by simp [ACCEPTED_MEDIA]) (by norm_num),
   (connect_validates
      { name := "b", medium := "ethernet", rateGbps := 1, distanceMeters := 10,
        fullDuplex := true, baseLatencyMs := 1, jitterMs := 0, lossRate := 0,
        rx := (none : Option Nat) } 7).1
      (Or.inl (by simp [ACCEPTED_MEDIA]))⟩

/-- C7: `send` is a total function — it returns an outcome on every
path and never throws.  With no receiver registered the frame is
dropped with a warning; if the loss draw falls below the configured
loss probability the frame is dropped without error; with loss
probability 0 every send on a connected link schedules a delivery; with
loss probability 1 no frame is ever scheduled. -/
theorem send_total_behavior {ρ : Type} (l : NetworkLink ρ) (frame : List Nat)
    (r1 r2 r3 : ℚ) :
    (l.rx = none → l.send frame r1 r2 r3 = SendOutcome.droppedNoReceiver)
    ∧ (l.rx.isSome = true → r1 < l.lossRate →
        l.send frame r1 r2 r3 = SendOutcome.droppedLoss)
    ∧ (l.rx.isSome = true → l.lossRate = 0 → 0 ≤ r1 →
        ∃ d, l.send frame r1 r2 r3 = SendOutcome.scheduled d)
    ∧ (l.lossRate = 1 → r1 < 1 →
        ∀ d, l.send frame r1 r2 r3 ≠ SendOutcome.scheduled d) := by
  refine ⟨?_, ?_, ?_, ?_⟩
  · intro h
    simp [NetworkLink.send, h]
  · intro hsome hloss
    rcases hr : l.rx with _ | r
    · rw [hr] at hsome
      simp at hsome
    · simp only [NetworkLink.send, hr]
      rw [if_pos hloss]
  · intro hsome hzero hpos
    rcases hr : l.rx with _ | r
    · rw [hr] at hsome
      simp at hsome
    · simp only [NetworkLink.send, hr, hzero]
      rw [if_neg (not_lt.mpr hpos)]
      exact ⟨_, rfl⟩
  · intro hone hlt d
    rcases hr : l.rx with _ | r
    · simp [NetworkLink.send, hr]
    · simp only [NetworkLink.send, hr, hone]
      rw [if_pos hlt]
      simp

/-- C7 witness: the four behaviors at concrete links — no receiver,
loss probability 1 with draw 1/2, and loss probability 0. -/
theorem send_total_behavior_witness :
    (NetworkLink.send
        { name := "w", medium := "fiber", rateGbps := 1, distanceMeters := 0,
          fullDuplex := true, baseLatencyMs := 0, jitterMs := 0, lossRate := 0,
          rx := (none : Option Nat) } [1] 0 0 0
      = SendOutcome.droppedNoReceiver)
    ∧ (NetworkLink.send
        { name := "w", medium := "fiber", rateGbps := 1, distanceMeters := 0,
          fullDuplex := true, baseLatencyMs := 0, jitterMs := 0, lossRate := 1,
          rx := (some 0 : Option Nat) } [1] (1 / 2) 0 0
      = SendOutcome.droppedLoss)
    ∧ (∃ d, NetworkLink.send
        { name := "w", medium := "fiber", rateGbps := 1, distanceMeters := 0,
          fullDuplex := true, baseLatencyMs := 0, jitterMs := 0, lossRate := 0,
          rx := (some 0 : Option Nat) } [1] 0 0 0
      = SendOutcome.scheduled d)
    ∧ (∀ d, NetworkLink.send
        { name := "w", medium := "fiber", rateGbps := 1, distanceMeters := 0,
          fullDuplex := true, baseLatencyMs := 0, jitterMs := 0, lossRate := 1,
          rx := (some 0 : Option Nat) } [1] (1 / 2) 0 0
      ≠ SendOutcome.scheduled d) :=
  ⟨(send_total_behavior
      { name := "w", medium := "fiber", rateGbps := 1, distanceMeters := 0,
        fullDuplex := true, baseLatencyMs := 0, jitterMs := 0, lossRate := 0,
        rx := (none : Option Nat) } [1] 0 0 0).1 rfl,
   (send_total_behavior
      { name := "w", medium := "fiber", rateGbps := 1, distanceMeters := 0,
        fullDuplex := true, baseLatencyMs := 0, jitterMs := 0, lossRate := 1,
        rx := (some 0 : Option Nat) } [1] (1 / 2) 0 0).2.1 rfl (by norm_num),
   (send_total_behavior
      { name := "w", medium := "fiber", rateGbps := 1, distanceMeters := 0,
        fullDuplex := true, baseLatencyMs := 0, jitterMs := 0, lossRate := 0,
        rx := (some 0 : Option Nat) } [1] 0 0 0).2.2.1 rfl rfl (by norm_num),
   (send_total_behavior
      { name := "w", medium := "fiber", rateGbps := 1, distanceMeters := 0,
        fullDuplex := true, baseLatencyMs := 0, jitterMs := 0, lossRate := 1,
        rx := (some 0 : Option Nat) } [1] (1 / 2) 0 0).2.2.2 rfl (by norm_num)⟩

/-- C8 counterexample: the computed delay is clamped at zero before the
duplex penalty is added.  With base latency 0, jitter bound 1, jitter
draw 0 (sampled jitter −1), zero distance and an empty frame on a
full-duplex link, the code schedules delay 0, while the claimed plain
sum baseLatency + serialization + propagation + jitter + duplexPenalty
is −1 ≠ 0. -/
theorem send_delay_clamped_at_zero :
    NetworkLink.send
      { name := "x", medium := "twisted-pair", rateGbps := 1, distanceMeters := 0,
        fullDuplex := true, baseLatencyMs := 0, jitterMs := 1, lossRate := 0,
        rx := (some 0 : Option Nat) } [] 0 0 0
      = SendOutcome.scheduled 0
    ∧ (0 : ℚ) + ((([] : List Nat).length : ℚ) * 8) / (1 * 1000000000) * 1000
      + 0 / mediaV "twisted-pair" * 1000 + ((0 : ℚ) * 2 * 1 - 1) + 0 = -1
    ∧ (0 : ℚ) ≠ -1 := by
  refine ⟨?_, by norm_num [mediaV], by norm_num⟩
  simp only [NetworkLink.send]
  norm_num [mediaV, max_def]

/-- C8 (amended): for every frame that survives the loss draw on a
connected link with a positive rate, the scheduled one-way delay equals
`max 0 (baseLatency + serializationDelay + propagationDelay + jitter)`
plus the duplex penalty, where serializationDelay = frameBits divided by
the rate in bits per second (times 1000 for ms), propagationDelay =
distance / mediumVelocity (times 1000 for ms), jitter = draw·2·bound −
bound, and the penalty is draw·0.2 sampled only in half duplex (0 in
full duplex).  The clamp of the bracketed sum at zero is the code's
only deviation from the claimed plain sum. -/
theorem send_delay_formula {ρ : Type} (l : NetworkLink ρ) (frame : List Nat)
    (r1 r2 r3 : ℚ) (hrx : l.rx.isSome = true) (hloss : ¬ r1 < l.lossRate)
    (hrate : 0 < l.rateGbps) :
    l.send frame r1 r2 r3 = SendOutcome.scheduled
      (max 0 (l.baseLatencyMs
          + ((frame.length : ℚ) * 8) / (l.rateGbps * 1000000000) * 1000
          + l.distanceMeters / mediaV l.medium * 1000
          + (r2 * 2 * l.jitterMs - l.jitterMs))
        + (if l.fullDuplex then 0 else r3 * (0.2 : ℚ))) := by
  rcases hr : l.rx with _ | r
  · rw [hr] at hrx
    simp at hrx
  · simp only [NetworkLink.send, hr]
    rw [if_neg hloss]

/-- C8 witness: the delay formula at a concrete full-duplex
twisted-pair link with base latency 1 ms, no jitter, zero distance and
an empty frame (scheduled delay 1 ms). -/
theorem send_delay_formula_witness :
    (Option.isSome (some 0 : Option Nat) = true ∧ ¬ (0 : ℚ) < 0 ∧ (0 : ℚ) < 1)
    ∧ NetworkLink.send
        { name := "w", medium := "twisted-pair", rateGbps := 1, distanceMeters := 0,
          fullDuplex := true, baseLatencyMs := 1, jitterMs := 0, lossRate := 0,
          rx := (some 0 : Option Nat) } [] 0 0 0
      = SendOutcome.scheduled
        (max 0 ((1 : ℚ)
            + ((([] : List Nat).length : ℚ) * 8) / ((1 : ℚ) * 1000000000) * 1000
            + (0 : ℚ) / mediaV "twisted-pair" * 1000 + ((0 : ℚ) * 2 * 0 - 0))
          + (if (true : Bool) then 0 else (0 : ℚ) * (0.2 : ℚ))) :=
  ⟨⟨rfl, by norm_num, by norm_num⟩,
   send_delay_formula
     { name := "w", medium := "twisted-pair", rateGbps := 1, distanceMeters := 0,
       fullDuplex := true, baseLatencyMs := 1, jitterMs := 0, lossRate := 0,
       rx := (some 0 : Option Nat) } [] 0 0 0 rfl (by norm_num) (by norm_num)⟩

/-- C4: the reassembly buffer is order-dependent, contradicting the
claim that the message is reconstructed regardless of arrival order.
The message `[1, 2]` splits at mss = 1 into the two segments `[1]` and
`[2]`; each is framed exactly as the client frames it (transport header
with ACK+PSH and FIN on the last segment, then the network header).
When the server receives the two frames in reversed order, its
concatenated buffer is `[2, 1] ≠ [1, 2]`; in-order arrival reproduces
the message — `onFrame` appends payloads in arrival order and the
segments carry no chunk identification the buffer could sort by. -/
theorem reassembly_order_dependent :
    segment [1, 2] 1 = [[1], [2]]
    ∧ concat (Server.onFrame (Server.onFrame []
        (cat ((IPv4Header.make [10, 0, 0, 2] [104, 18, 32, 47] 0 0 40961 true false
          0 64 6 []).pack
          (cat ((TCPHeader.make 53000 443 20000 10000 5
            ⟨false, false, false, false, true, true, false, false, true⟩ 65535
            0 []).pack) [2]))
          (cat ((TCPHeader.make 53000 443 20000 10000 5
            ⟨false, false, false, false, true, true, false, false, true⟩ 65535
            0 []).pack) [2])))
        (cat ((IPv4Header.make [10, 0, 0, 2] [104, 18, 32, 47] 0 0 40960 true false
          0 64 6 []).pack
          (cat ((TCPHeader.make 53000 443 20000 10000 5
            ⟨false, false, false, false, true, true, false, false, false⟩ 65535
            0 []).pack) [1]))
          (cat ((TCPHeader.make 53000 443 20000 10000 5
            ⟨false, false, false, false, true, true, false, false, false⟩ 65535
            0 []).pack) [1])))
      ≠ [1, 2]
    ∧ concat (Server.onFrame (Server.onFrame []
        (cat ((IPv4Header.make [10, 0, 0, 2] [104, 18, 32, 47] 0 0 40960 true false
          0 64 6 []).pack
          (cat ((TCPHeader.make 53000 443 20000 10000 5
            ⟨false, false, false, false, true, true, false, false, false⟩ 65535
            0 []).pack) [1]))
          (cat ((TCPHeader.make 53000 443 20000 10000 5
            ⟨false, false, false, false, true, true, false, false, false⟩ 65535
            0 []).pack) [1])))
        (cat ((IPv4Header.make [10, 0, 0, 2] [104, 18, 32, 47] 0 0 40961 true false
          0 64 6 []).pack
          (cat ((TCPHeader.make 53000 443 20000 10000 5
            ⟨false, false, false, false, true, true, false, false, true⟩ 65535
            0 []).pack) [2]))
          (cat ((TCPHeader.make 53000 443 20000 10000 5
            ⟨false, false, false, false, true, true, false, false, true⟩ 65535
            0 []).pack) [2])))
      = [1, 2] := by
  refine ⟨?_, by decide, by decide⟩
  simp [segment, segmentGo]

end NetStack
